import Mathlib

/-!
Verification development for the image-converter backend.

The Lean definitions below are a shallow embedding of the Python source:
  - src/backend/app/conversion/resize.py   (geometry, hex color parsing)
  - src/backend/app/conversion/service.py  (conversion engine, size presets, quality)
  - src/backend/app/batch.py               (batch state, zip assembly)
  - src/backend/app/api/routes.py          (_run_batch_and_zip)
Python floats that only feed integer truncation are modelled as exact
rationals; Python strings are modelled as Lean strings over their char data
(ASCII semantics for isdigit/isalnum/lower, which is what the repository's
inputs use).  Filesystem and codec effects are modelled by explicit oracles.
-/

namespace ImgConv

/-! ## Python string primitives -/

/-- Python `str.strip()` whitespace set (ASCII). -/
def pyIsSpace (c : Char) : Bool :=
  c = ' ' ∨ c = '\t' ∨ c = '\n' ∨ c = '\r' ∨ c = '\x0b' ∨ c = '\x0c'

/-- Python `str.strip()` on char data. -/
def pyStripList (cs : List Char) : List Char :=
  ((cs.dropWhile pyIsSpace).reverse.dropWhile pyIsSpace).reverse

/-- Python `str.strip()`. -/
def pyStrip (s : String) : String :=
  ⟨pyStripList s.data⟩

/-- Python `str.lower()` on one ASCII char. -/
def pyLowerChar (c : Char) : Char :=
  if 'A' ≤ c ∧ c ≤ 'Z' then Char.ofNat (c.toNat + 32) else c

/-- Python `str.lower()`. -/
def pyLower (s : String) : String :=
  ⟨s.data.map pyLowerChar⟩

def isAsciiDigit (c : Char) : Bool :=
  '0' ≤ c ∧ c ≤ '9'

/-- Python `str.isdigit()` (ASCII digits): nonempty and all digits. -/
def pyIsDigits (s : String) : Bool :=
  s.data ≠ [] ∧ s.data.all isAsciiDigit

/-- Decimal value of a digit string (used where the source calls `int(a)`
on a string already checked by `isdigit`). -/
def natOfDigits (cs : List Char) : Nat :=
  cs.foldl (fun acc c => 10 * acc + (c.toNat - 48)) 0

/-- Python slice `s[:n]`. -/
def strTake (n : Nat) (s : String) : String :=
  ⟨s.data.take n⟩

/-! ## Python `int(s, 16)`

`hex_to_rgb` in resize.py hands two-character slices to `int(·, 16)`.
Python's parser tolerates surrounding whitespace, one sign character, an
optional `0x`/`0X` prefix and single underscores between digits; this is
modelled exactly. -/

def hexDigitVal (c : Char) : Option Nat :=
  if c ∈ ['0', '1', '2', '3', '4', '5', '6', '7', '8', '9'] then some (c.toNat - 48)
  else if c ∈ ['a', 'b', 'c', 'd', 'e', 'f'] then some (c.toNat - 87)
  else if c ∈ ['A', 'B', 'C', 'D', 'E', 'F'] then some (c.toNat - 55)
  else none

def isHexDigit (c : Char) : Bool :=
  (hexDigitVal c).isSome

/-- Digits with single underscores allowed between digits (a lone or
trailing underscore is an error, as in CPython). -/
def hexDigitsAux (acc : Nat) : List Char → Option Nat
  | [] => some acc
  | c :: rest =>
    if c = '_' then
      match rest with
      | [] => none
      | c2 :: rest2 =>
        match hexDigitVal c2 with
        | some d => hexDigitsAux (16 * acc + d) rest2
        | none => none
    else
      match hexDigitVal c with
      | some d => hexDigitsAux (16 * acc + d) rest
      | none => none

/-- Nonempty hex-digit run (underscore separated). -/
def parseHexDigits : List Char → Option Nat
  | [] => none
  | c :: rest =>
      match hexDigitVal c with
      | some d => hexDigitsAux d rest
      | none => none

/-- Digit part with optional `0x`/`0X` prefix (an underscore may follow the
prefix, as in CPython). -/
def parseHexBody (cs : List Char) : Option Nat :=
  match cs with
  | c0 :: c1 :: rest =>
    if c0 = '0' ∧ (c1 = 'x' ∨ c1 = 'X') then
      match rest with
      | '_' :: rest2 => parseHexDigits rest2
      | _ => parseHexDigits rest
    else parseHexDigits cs
  | _ => parseHexDigits cs

/-- Python `int(s, 16)`: `some` the value, `none` for `ValueError`. -/
def pyIntBase16 (s : String) : Option Int :=
  match pyStripList s.data with
  | [] => none
  | c :: rest =>
    if c = '+' then (parseHexBody rest).map (fun n => (n : Int))
    else if c = '-' then (parseHexBody rest).map (fun n => -(n : Int))
    else (parseHexBody (c :: rest)).map (fun n => (n : Int))

/-- Totalized hex-digit value (0 for non-digits); only used to state the
parsed byte components of a well-formed `#RRGGBB` string. -/
def hexByte (c : Char) : Int :=
  ((hexDigitVal c).getD 0 : Nat)

/-! ## resize.py: `hex_to_rgb` -/

/-- Embedding of `hex_to_rgb` from resize.py: strip whitespace, strip leading `#`s, and
if six characters remain try to parse the three two-character groups with
`int(·, 16)`; any `ValueError` (or wrong length) yields the default gray. -/
def hex_to_rgb (hexColor : String) : Int × Int × Int :=
  let t := (pyStripList hexColor.data).dropWhile (fun c => c = '#')
  if t.length = 6 then
    match pyIntBase16 ⟨t.take 2⟩, pyIntBase16 ⟨(t.drop 2).take 2⟩,
          pyIntBase16 ⟨(t.drop 4).take 2⟩ with
    | some r, some g, some b => (r, g, b)
    | _, _, _ => (128, 128, 128)
  else (128, 128, 128)

/-! ## resize.py: geometry (`resize_to_fit`)

Pixel content is irrelevant to the claims; a PIL image is modelled by its
size and mode.  PIL's `crop` always returns an image of exactly the box
size (areas outside the source are padded), `paste` leaves the base image's
size unchanged, and `GaussianBlur` preserves size. -/

structure PILImage where
  width : Int
  height : Int
  mode : String
deriving Repr, DecidableEq

abbrev RGB := Int × Int × Int

def pilConvert (img : PILImage) (m : String) : PILImage :=
  { img with mode := m }

def pilCopy (img : PILImage) : PILImage := img

def pilResize (img : PILImage) (w h : Int) : PILImage :=
  { img with width := w, height := h }

def pilCrop (img : PILImage) (left top right bottom : Int) : PILImage :=
  { img with width := right - left, height := bottom - top }

def pilNew (m : String) (w h : Int) (_color : RGB) : PILImage :=
  ⟨w, h, m⟩

def pilPaste (base : PILImage) (_src : PILImage) (_x _y : Int) : PILImage :=
  base

def pilGaussianBlur (img : PILImage) (_radius : Int) : PILImage := img

/-- Python `int(float)` (truncation toward zero) on an exact rational. -/
def pyTrunc (q : ℚ) : Int :=
  if q < 0 then -⌊-q⌋ else ⌊q⌋

/-- Embedding of `resize_to_fit` from resize.py.  The unknown-fill-mode fallback in the
source is a tail call `resize_to_fit(img, tw, th, "crop", fill_color)`;
at that point `img` is already RGB and the `w == tw and h == th` early
return was (and stays) false, so the call reduces to the crop branch,
which is how the final `else` is written here. -/
def resize_to_fit (img0 : PILImage) (targetWidth targetHeight : Int)
    (fillMode : String) (fillColor : Option RGB) : PILImage :=
  let fc := fillColor.getD (128, 128, 128)
  let w := img0.width
  let h := img0.height
  let img := if img0.mode ≠ "RGB" then pilConvert img0 "RGB" else img0
  let tw := targetWidth
  let th := targetHeight
  if w = tw ∧ h = th then pilCopy img
  else
    let scaleCover : ℚ := max ((tw : ℚ) / (w : ℚ)) ((th : ℚ) / (h : ℚ))
    let scaleFit : ℚ := min ((tw : ℚ) / (w : ℚ)) ((th : ℚ) / (h : ℚ))
    if fillMode = "crop" then
      let newW := pyTrunc ((w : ℚ) * scaleCover)
      let newH := pyTrunc ((h : ℚ) * scaleCover)
      let resized := pilResize img newW newH
      let left := (newW - tw).fdiv 2
      let top := (newH - th).fdiv 2
      pilCrop resized left top (left + tw) (top + th)
    else if fillMode = "color" then
      let newW := pyTrunc ((w : ℚ) * scaleFit)
      let newH := pyTrunc ((h : ℚ) * scaleFit)
      if newW ≤ 0 ∨ newH ≤ 0 then pilNew "RGB" tw th fc
      else
        let resized := pilResize img newW newH
        let out := pilNew "RGB" tw th fc
        pilPaste out resized ((tw - newW).fdiv 2) ((th - newH).fdiv 2)
    else if fillMode = "blur" then
      let newW := pyTrunc ((w : ℚ) * scaleCover)
      let newH := pyTrunc ((h : ℚ) * scaleCover)
      if newW ≤ 0 ∨ newH ≤ 0 then pilNew "RGB" tw th fc
      else
        let resized := pilResize img newW newH
        let blurred := pilGaussianBlur resized ((min tw th).fdiv 20)
        let left := (newW - tw).fdiv 2
        let top := (newH - th).fdiv 2
        pilCrop blurred left top (left + tw) (top + th)
    else
      let newW := pyTrunc ((w : ℚ) * scaleCover)
      let newH := pyTrunc ((h : ℚ) * scaleCover)
      let resized := pilResize img newW newH
      let left := (newW - tw).fdiv 2
      let top := (newH - th).fdiv 2
      pilCrop resized left top (left + tw) (top + th)

/-! ## config.py defaults and service.py quality derivation -/

/-- config.py default (env override absent). -/
def WEB_OPTIMIZED_QUALITY : Nat := 85

/-- config.py default (env override absent). -/
def DEFAULT_QUALITY : Nat := 90

/-- Quality derivation from `_convert_image` (service.py lines 126-129):
base quality is the web-optimized or default preset; an in-range
size-reduction percent overrides it with `max(25, min(95, 95 - int(p * 0.9)))`.
For every integer 0 ≤ p ≤ 80 the IEEE-double product `p * 0.9` truncates to
⌊9p/10⌋ (the accumulated rounding error is far below the distance to the
next integer, and at exact multiples of 9/10 the product rounds to the
integer itself), so `int(p * 0.9)` is embedded as `9 * p / 10` on ℕ. -/
def derived_quality (webOptimized : Bool) (sizeReductionPercent : Option Int) : Nat :=
  let quality := if webOptimized then WEB_OPTIMIZED_QUALITY else DEFAULT_QUALITY
  match sizeReductionPercent with
  | none => quality
  | some p => if 0 ≤ p ∧ p ≤ 80 then max 25 (min 95 (95 - 9 * p.toNat / 10)) else quality

/-! ## config.py format and preset tables -/

def IMAGE_EXTENSIONS : List String :=
  [".jpg", ".jpeg", ".png", ".gif", ".bmp", ".tiff", ".webp", ".avif"]

def VIDEO_EXTENSIONS : List String :=
  [".mp4", ".webm", ".mov", ".avi", ".mkv", ".m4v"]

def IMAGE_OUTPUT_FORMATS : List String := ["webp", "jpeg", "png", "avif"]

def VIDEO_OUTPUT_FORMATS : List String := ["webp", "mp4", "webm"]

/-- config.py `SIZE_PRESETS` (name → `(width, height)`, `none` for original). -/
def SIZE_PRESETS : List (String × Option (Int × Int)) :=
  [("original", none),
   ("instagram_square", some (1080, 1080)),
   ("instagram_portrait", some (1080, 1350)),
   ("instagram_story", some (1080, 1920)),
   ("facebook_post", some (1200, 630)),
   ("twitter_post", some (1200, 675)),
   ("linkedin_banner", some (1200, 627)),
   ("linkedin_background", some (1584, 396)),
   ("pinterest", some (1000, 1500)),
   ("youtube_thumbnail", some (1280, 720)),
   ("google_display", some (1200, 628))]

/-! ## service.py: `_parse_size_presets` -/

/-- A resolved size preset: `(width?, height?, label)`. -/
abbrev SizeTriple := Option Int × Option Int × String

/-- Python `name.split("x", 1)`: the part before the first `'x'` and the
part after it (the whole string and `""` when no `'x'` occurs, which the
source guards against with `if "x" in name`). -/
def pySplitFirst (sep : Char) (s : String) : String × String :=
  (⟨s.data.takeWhile (fun c => c ≠ sep)⟩, ⟨(s.data.dropWhile (fun c => c ≠ sep)).drop 1⟩)

/-- One iteration of the `for name in preset_names` loop of
`_parse_size_presets` (service.py lines 64-99), acting on the
`(result, seen)` accumulator.  The `continue` statements after the three
`"x"`-pattern cases and after the pattern block mean a name containing
`'x'` never reaches the named-preset lookup. -/
def parse_size_presets_step (st : List SizeTriple × List String) (name0 : String) :
    List SizeTriple × List String :=
  let name := pyLower (pyStrip name0)
  let result := st.1
  let seen := st.2
  if name ∈ seen then st
  else if name = "original" then (result ++ [(none, none, name)], seen ++ [name])
  else if name.data.contains 'x' then
    let parts := pySplitFirst 'x' name
    let a := pyStrip parts.1
    let b := pyStrip parts.2
    if pyIsDigits a ∧ pyIsDigits b then
      let w : Int := natOfDigits a.data
      let h : Int := natOfDigits b.data
      if 1 ≤ w ∧ w ≤ 4096 ∧ 1 ≤ h ∧ h ≤ 4096 then
        (result ++ [(some w, some h, name)], seen ++ [name])
      else st
    else if pyIsDigits a ∧ b = "" then
      let w : Int := natOfDigits a.data
      if 1 ≤ w ∧ w ≤ 4096 then (result ++ [(some w, none, name)], seen ++ [name])
      else st
    else if a = "" ∧ pyIsDigits b then
      let h : Int := natOfDigits b.data
      if 1 ≤ h ∧ h ≤ 4096 then (result ++ [(none, some h, name)], seen ++ [name])
      else st
    else st
  else
    match SIZE_PRESETS.lookup name with
    | some (some d) => (result ++ [(some d.1, some d.2, name)], seen ++ [name])
    | _ => st

/-- Embedding of `_parse_size_presets` from service.py: `None` or an empty list default
to `original`; otherwise the loop above runs and an empty result defaults
to `original`. -/
def _parse_size_presets (presetNames : Option (List String)) : List SizeTriple :=
  match presetNames with
  | none => [(none, none, "original")]
  | some [] => [(none, none, "original")]
  | some names =>
    let result := (names.foldl parse_size_presets_step ([], [])).1
    if result = [] then [(none, none, "original")] else result

/-- Resolution of a single size label, following the spec's words (§6 of
spec.md, amended to note that labels are normalized by trimming and
lowercasing and that whitespace around each dimension is tolerated):
the literal `original` means no resize; a `<int>x<int>`, `<int>x` or
`x<int>` pattern resolves to those dimensions when each given dimension is
in [1, 4096]; a named preset resolves to its fixed dimensions; everything
else is dropped (`none`). -/
def sizeLabelResolutionSpec (raw : String) : Option SizeTriple :=
  let name := pyLower (pyStrip raw)
  if name = "original" then some (none, none, name)
  else if name.data.contains 'x' then
    let parts := pySplitFirst 'x' name
    let a := pyStrip parts.1
    let b := pyStrip parts.2
    if pyIsDigits a ∧ pyIsDigits b then
      let w : Int := natOfDigits a.data
      let h : Int := natOfDigits b.data
      if 1 ≤ w ∧ w ≤ 4096 ∧ 1 ≤ h ∧ h ≤ 4096 then some (some w, some h, name) else none
    else if pyIsDigits a ∧ b = "" then
      let w : Int := natOfDigits a.data
      if 1 ≤ w ∧ w ≤ 4096 then some (some w, none, name) else none
    else if a = "" ∧ pyIsDigits b then
      let h : Int := natOfDigits b.data
      if 1 ≤ h ∧ h ≤ 4096 then some (none, some h, name) else none
    else none
  else
    match SIZE_PRESETS.lookup name with
    | some (some d) => some (some d.1, some d.2, name)
    | _ => none

/-- Spec-side list resolution: resolve each label in order, skipping a
label whose normalized form was already resolved earlier. -/
def resolveSizeLabelsSpec : List String → List String → List SizeTriple
  | [], _ => []
  | n :: ns, seen =>
    if pyLower (pyStrip n) ∈ seen then resolveSizeLabelsSpec ns seen
    else
      match sizeLabelResolutionSpec n with
      | some t => t :: resolveSizeLabelsSpec ns (seen ++ [pyLower (pyStrip n)])
      | none => resolveSizeLabelsSpec ns seen

/-! ## models.py and service.py: tasks and the conversion engine

A file path is modelled by its stem and suffix (`pathlib.Path` fields);
`name = stem ++ suffix`.  Codec and filesystem effects are oracles:
`openFail`/`saveFail` give the exception message raised by `Image.open` /
`save` (if any), `statSize` the byte size `stat()` reports for a written
output, `ffmpegRun` the `(returncode, stderr, stdout)` of an ffmpeg
invocation, `ffmpegMissing`/`fnfMessage` a missing ffmpeg binary and the
`str` of the resulting `FileNotFoundError`.  Pixel-level work (crop,
resize, encoding) does not influence the task bookkeeping the claims are
about and is covered by the geometry model above. -/

inductive MediaType where
  | image
  | video
deriving Repr, DecidableEq

inductive TaskStatus where
  | pending
  | uploading
  | converting
  | completed
  | failed
deriving Repr, DecidableEq

structure ConversionTask where
  task_id : String
  filename : String
  media_type : MediaType
  status : TaskStatus
  progress : ℚ
  error : Option String
  output_paths : List String
  output_formats : List String
  input_size : Option Int
  output_sizes : List Int
deriving Repr, DecidableEq

structure PyPath where
  stem : String
  suffix : String
deriving Repr, DecidableEq

def PyPath.name (p : PyPath) : String := p.stem ++ p.suffix

/-- Codec/filesystem oracles for one `convert` call. -/
structure ConvOracles where
  openFail : Option String
  saveFail : String → Option String
  statSize : String → Int
  inputSize : Option Int
  ffmpegMissing : Bool
  fnfMessage : String
  ffmpegRun : String → Int × String × String

/-- Embedding of `ConversionService.get_media_type`. -/
def get_media_type (p : PyPath) : Option MediaType :=
  let ext := pyLower p.suffix
  if ext ∈ IMAGE_EXTENSIONS then some .image
  else if ext ∈ VIDEO_EXTENSIONS then some .video
  else none

/-- The suffix `_convert_image` derives from a resolved size preset
(`f"{tw}x{th}"`, `f"{tw}x"`, `f"x{th}"` or `"original"`). -/
def sizeSuffix (tw th : Option Int) : String :=
  match tw, th with
  | some w, some h => toString w ++ "x" ++ toString h
  | some w, none => toString w ++ "x"
  | none, some h => "x" ++ toString h
  | none, none => "original"

/-- Output filename `_convert_image` writes:
`f"{src.stem}_{task.task_id[:8]}_{suffix}.{fmt}"`. -/
def imageOutName (stem tid8 suffix fmt : String) : String :=
  stem ++ "_" ++ tid8 ++ "_" ++ suffix ++ "." ++ fmt

/-- Output filename `_convert_video` writes:
`f"{src.stem}_{task.task_id[:8]}.{fmt}"`. -/
def videoOutName (stem tid8 fmt : String) : String :=
  stem ++ "_" ++ tid8 ++ "." ++ fmt

/-- The `(out_path, fmt)` pairs `_convert_image`'s nested loop attempts, in
order: size presets outside, formats inside, unsupported formats skipped
(formats are lowercased before the membership test). -/
def imageSteps (stem tid8 : String) (sizePresets : List SizeTriple)
    (outFormats : List String) : List (String × String) :=
  sizePresets.flatMap fun t =>
    ((outFormats.map pyLower).filter (fun f => f ∈ IMAGE_OUTPUT_FORMATS)).map fun fmt =>
      (imageOutName stem tid8 (sizeSuffix t.1 t.2.1) fmt, fmt)

/-- The `(out_path, fmt)` pairs `_convert_video`'s loop attempts, in order
(unsupported formats are skipped with a warning). -/
def videoSteps (stem tid8 : String) (outFormats : List String) : List (String × String) :=
  ((outFormats.map pyLower).filter (fun f => f ∈ VIDEO_OUTPUT_FORMATS)).map fun fmt =>
    (videoOutName stem tid8 fmt, fmt)

/-- The image save loop: on each step either `save` raises (the task is
marked failed, the append never happens, and the exception propagates as
the second component) or the path, format and stat size are appended
together.  Progress is `step / total * 100` after each write. -/
def runImageSteps (ors : ConvOracles) (total : ℚ) (step : ℚ) :
    List (String × String) → ConversionTask → ConversionTask × Option String
  | [], t => ({ t with status := .completed, progress := 100 }, none)
  | (p, f) :: rest, t =>
    match ors.saveFail p with
    | some msg => ({ t with status := .failed, error := some msg }, some msg)
    | none =>
      runImageSteps ors total (step + 1) rest
        { t with
          progress := (step + 1) / total * 100,
          output_paths := t.output_paths ++ [p],
          output_formats := t.output_formats ++ [f],
          output_sizes := t.output_sizes ++ [ors.statSize p] }

/-- Embedding of `_convert_image` (service.py lines 102-213) restricted to the task
bookkeeping: enter `converting`, open the source (an open failure marks
the task failed and propagates), run the save loop.  The `total == 0`
guard only affects progress. -/
def _convert_image (ors : ConvOracles) (t0 : ConversionTask) (stem tid8 : String)
    (sizePresets : List SizeTriple) (outFormats : List String) :
    ConversionTask × Option String :=
  let t := { t0 with status := .converting, progress := 0 }
  match ors.openFail with
  | some msg => ({ t with status := .failed, error := some msg }, some msg)
  | none =>
    let steps := imageSteps stem tid8 sizePresets outFormats
    let total : ℚ := if steps.length = 0 then 1 else steps.length
    runImageSteps ors total 0 steps t

/-- The per-format video loop: a missing ffmpeg binary marks the task
failed with `"ffmpeg not installed"` and propagates the
`FileNotFoundError`; a nonzero exit marks it failed with
`stderr or stdout or "ffmpeg failed"` and propagates that message;
otherwise the output is recorded. -/
def runVideoSteps (ors : ConvOracles) (total : ℚ) (idx : ℚ) :
    List (String × String) → ConversionTask → ConversionTask × Option String
  | [], t => ({ t with status := .completed, progress := 100 }, none)
  | (p, f) :: rest, t =>
    if ors.ffmpegMissing then
      ({ t with status := .failed, error := some "ffmpeg not installed" }, some ors.fnfMessage)
    else
      let r := ors.ffmpegRun p
      if r.1 ≠ 0 then
        let msg := if r.2.1 ≠ "" then r.2.1 else if r.2.2 ≠ "" then r.2.2 else "ffmpeg failed"
        ({ t with status := .failed, error := some msg }, some msg)
      else
        runVideoSteps ors total (idx + 1) rest
          { t with
            progress := (idx + 1) / total * 100,
            output_paths := t.output_paths ++ [p],
            output_formats := t.output_formats ++ [f],
            output_sizes := t.output_sizes ++ [ors.statSize p] }

/-- Embedding of `_convert_video` (service.py lines 215-288) restricted to the task
bookkeeping. -/
def _convert_video (ors : ConvOracles) (t0 : ConversionTask) (stem tid8 : String)
    (outFormats : List String) : ConversionTask × Option String :=
  let t := { t0 with status := .converting, progress := 0 }
  let steps := videoSteps stem tid8 outFormats
  let total : ℚ := max 1 (outFormats.length : ℚ)
  runVideoSteps ors total 0 steps t

/-- The planned output paths of a `convert` call (image or video). -/
def plannedPaths (mt : MediaType) (stem tid8 : String) (sizePresets : List SizeTriple)
    (outFormats : List String) : List (String × String) :=
  match mt with
  | .image => imageSteps stem tid8 sizePresets outFormats
  | .video => videoSteps stem tid8 outFormats

/-- The task registry (`ConversionService._tasks`) as an insertion-ordered
association list. -/
structure ServiceState where
  tasks : List (String × ConversionTask)
deriving Repr, DecidableEq

/-- Embedding of `ConversionService.convert` (service.py lines 290-335).  `tid` stands
for the generated `uuid4` string.  An unsupported extension raises
`ValueError` before any task is created (`.error`, state unchanged); for a
supported file a task is created and registered, the media-specific
conversion runs, and the outer `except Exception` turns any propagated
exception into `status = failed`, `error = str(e)` on the returned task,
which is also the registered one (the registry holds the same object the
caller receives). -/
def convert (ors : ConvOracles) (st : ServiceState) (tid : String) (p : PyPath)
    (outFormats : List String) (sizePresets : Option (List String)) :
    Except String ConversionTask × ServiceState :=
  match get_media_type p with
  | none => (.error ("Unsupported file type: " ++ p.suffix), st)
  | some mt =>
    let t0 : ConversionTask :=
      { task_id := tid, filename := p.name, media_type := mt, status := .converting,
        progress := 0, error := none, output_paths := [], output_formats := [],
        input_size := ors.inputSize, output_sizes := [] }
    let parsed := _parse_size_presets sizePresets
    let r :=
      match mt with
      | .image => _convert_image ors t0 p.stem (strTake 8 tid) parsed outFormats
      | .video => _convert_video ors t0 p.stem (strTake 8 tid) outFormats
    let tFinal :=
      match r.2 with
      | some msg => { r.1 with status := .failed, error := some msg }
      | none => r.1
    (.ok tFinal, { tasks := st.tasks ++ [(tid, tFinal)] })

/-! ## batch.py: batch state

The in-memory `_batches` dict is the observable store (the SQL mirror is
the persistence gateway the spec leaves external); it is modelled as a
map from batch id to an optional `BatchJob`.  `set_batch_completed` and
`set_batch_failed` mutate the entry only when it exists, exactly as the
`if job:` guards do. -/

structure BatchJob where
  batch_id : String
  status : String
  task_ids : List String
  error : Option String
  zip_filename : Option String
deriving Repr, DecidableEq

def Batches : Type := String → Option BatchJob

def emptyBatches : Batches := fun _ => none

/-- Embedding of `create_batch` (batch.py lines 44-48). -/
def create_batch (m : Batches) (batchId : String) (taskIds : List String) : Batches :=
  fun k =>
    if k = batchId then some ⟨batchId, "processing", taskIds, none, none⟩ else m k

/-- Embedding of `set_batch_completed` (batch.py lines 51-58): set status and zip name;
replace `task_ids` only when one is passed. -/
def set_batch_completed (m : Batches) (batchId zipFilename : String)
    (taskIds : Option (List String)) : Batches :=
  fun k =>
    if k = batchId then
      (m batchId).map fun j =>
        { j with
          status := "completed",
          zip_filename := some zipFilename,
          task_ids := match taskIds with | some l => l | none => j.task_ids }
    else m k

/-- Embedding of `set_batch_failed` (batch.py lines 61-66). -/
def set_batch_failed (m : Batches) (batchId err : String) : Batches :=
  fun k =>
    if k = batchId then
      (m batchId).map fun j => { j with status := "failed", error := some err }
    else m k

/-- A call to one of the three batch-state mutators, for claims that
quantify over call sequences. -/
inductive BatchCall where
  | create (batchId : String) (taskIds : List String)
  | completed (batchId : String) (zipFilename : String) (taskIds : Option (List String))
  | failed (batchId : String) (error : String)

def applyBatchCall (m : Batches) : BatchCall → Batches
  | .create id ts => create_batch m id ts
  | .completed id z ts => set_batch_completed m id z ts
  | .failed id e => set_batch_failed m id e

def applyBatchCalls (m : Batches) (cs : List BatchCall) : Batches :=
  cs.foldl applyBatchCall m

/-- The invariant claim C7 states for every reachable `BatchJob`. -/
def BatchFieldInvariant (m : Batches) : Prop :=
  ∀ id j, m id = some j →
    (j.zip_filename.isSome ↔ j.status = "completed") ∧
    (j.error.isSome ↔ j.status = "failed")

/-- A terminal transition is invoked only on a batch currently in
`"processing"` (or absent) — the discipline `_run_batch_and_zip` follows,
since each batch receives exactly one terminal transition after creation. -/
def terminalGuardOk (m : Batches) : BatchCall → Prop
  | .create _ _ => True
  | .completed id _ _ => ∀ j, m id = some j → j.status = "processing"
  | .failed id _ => ∀ j, m id = some j → j.status = "processing"

def GuardedCalls : Batches → List BatchCall → Prop
  | _, [] => True
  | m, c :: cs => terminalGuardOk m c ∧ GuardedCalls (applyBatchCall m c) cs

/-! ## batch.py: zip assembly -/

/-- Python `c.isalnum()` (ASCII). -/
def pyIsAlnum (c : Char) : Bool :=
  isAsciiDigit c ∨ ('a' ≤ c ∧ c ≤ 'z') ∨ ('A' ≤ c ∧ c ≤ 'Z')

/-- Embedding of `_sanitize_folder_name` (batch.py lines 69-72): keep alphanumerics and
`._- ` and space, strip, default `"file"` on empty, truncate to 64. -/
def _sanitize_folder_name (name : String) : String :=
  let s : String := ⟨pyStripList (name.data.filter fun c =>
    pyIsAlnum c ∨ c = '.' ∨ c = '_' ∨ c = '-' ∨ c = ' ')⟩
  let s := if s = "" then "file" else s
  strTake 64 s

/-- Basename of a path string (`Path(p).name`). -/
def pyBasename (p : String) : String :=
  ⟨((p.data.reverse.takeWhile fun c => c ≠ '/')).reverse⟩

/-- Model of `Path(nm).suffix`: the final dot-component, empty when the last dot is
the first character or absent or trailing. -/
def pathSuffix (nm : String) : String :=
  let cs := nm.data
  let n := cs.length
  match ((List.range n).filter fun i => cs.getD i ' ' = '.').getLast? with
  | some i => if 0 < i ∧ i + 1 < n then ⟨cs.drop i⟩ else ""
  | none => ""

/-- Model of `path.suffix.lstrip(".").lower() or "bin"`. -/
def zipEntryExt (nm : String) : String :=
  let e := pyLower ⟨(pathSuffix nm).data.dropWhile fun c => c = '.'⟩
  if e = "" then "bin" else e

/-- The folder a task's outputs go under in `by_file` mode:
`_sanitize_folder_name(task_id_to_filename.get(task_id, task_id[:8]))`. -/
def archiveFolderName (taskIdToFilename : List (String × String)) (taskId : String) : String :=
  _sanitize_folder_name ((taskIdToFilename.lookup taskId).getD (strTake 8 taskId))

/-- The archive member name of one output file (batch.py lines 97-103).
`arcname` only depends on the path's basename, because a relative path is
rejoined as `output_dir / path.name` first. -/
def zipArcname (folderStructure : String) (folderName taskId : String) (p : String) : String :=
  let nm := pyBasename p
  let ext := zipEntryExt nm
  if folderStructure = "by_file" then folderName ++ "/" ++ nm
  else if folderStructure = "by_format" then ext ++ "/" ++ nm
  else strTake 8 taskId ++ "_" ++ nm

/-- Embedding of `create_zip_from_task_outputs` (batch.py lines 75-106), returning the
zip filename (`f"{batch_id}.zip"`) together with the archive member names
written, in order.  `isFile` is the filesystem oracle for the
`path.is_file()` skip. -/
def create_zip_from_task_outputs (batchId : String)
    (taskIdToPaths : List (String × List String)) (folderStructure : String)
    (taskIdToFilename : List (String × String)) (isFile : String → Bool) :
    String × List String :=
  let entries := taskIdToPaths.flatMap fun te =>
    let folderName := archiveFolderName taskIdToFilename te.1
    (te.2.filter isFile).map fun p => zipArcname folderStructure folderName te.1 p
  (batchId ++ ".zip", entries)

/-! ## routes.py: `_run_batch_and_zip` -/

/-- Embedding of `_run_batch_and_zip` (routes.py lines 480-546) after `convert_many`
resolved to `tasks`: collect the `(task_id, output_paths)` pairs of tasks
with at least one output; if any exist, build the zip and mark the batch
completed with the zip name and the contributing task ids, otherwise mark
it failed with `"No outputs produced"`. -/
def run_batch_and_zip (m : Batches) (batchId : String) (tasks : List ConversionTask)
    (folderStructure : String) (isFile : String → Bool) : Batches :=
  let taskIdToPaths := (tasks.filter fun t => t.output_paths ≠ []).map fun t =>
    (t.task_id, t.output_paths)
  if taskIdToPaths ≠ [] then
    let taskIdToFilename := tasks.map fun t => (t.task_id, t.filename)
    let zipName :=
      (create_zip_from_task_outputs batchId taskIdToPaths folderStructure
        taskIdToFilename isFile).1
    set_batch_completed m batchId zipName (some (taskIdToPaths.map Prod.fst))
  else set_batch_failed m batchId "No outputs produced"

/-! ## Theorems -/

/-- The per-character value used by three-group hex parsing, totalized. -/
theorem hexDigitVal_getD_le (c : Char) : (hexDigitVal c).getD 0 ≤ 15 := by
  unfold hexDigitVal
  split_ifs with h1 h2 h3
  · fin_cases h1 <;> decide
  · fin_cases h2 <;> decide
  · fin_cases h3 <;> decide
  · simp

theorem hexDigitVal_not_space {c : Char} {d : Nat} (h : hexDigitVal c = some d) :
    pyIsSpace c = false := by
  unfold hexDigitVal at h
  split_ifs at h with h1 h2 h3
  · fin_cases h1 <;> decide
  · fin_cases h2 <;> decide
  · fin_cases h3 <;> decide

/-- C1: `resize_to_fit` returns exactly the target dimensions for every
source image with positive dimensions, every target width and height ≥ 1,
every fill-mode string and every fill color. -/
theorem resize_to_fit_exact_dims (img : PILImage) (tw th : Int) (mode : String)
    (color : Option RGB) (_hw : 0 < img.width) (_hh : 0 < img.height)
    (_htw : 1 ≤ tw) (_hth : 1 ≤ th) :
    (resize_to_fit img tw th mode color).width = tw ∧
    (resize_to_fit img tw th mode color).height = th := by
  unfold resize_to_fit
  dsimp only
  split_ifs <;>
    simp_all [pilCopy, pilCrop, pilResize, pilNew, pilPaste, pilConvert,
      pilGaussianBlur]

/-- Witness for C1 at the spec's concrete scenario (800×600 source,
1080×1080 target, crop mode). -/
theorem resize_to_fit_exact_dims_witness :
    (resize_to_fit ⟨800, 600, "RGB"⟩ 1080 1080 "crop" none).width = 1080 ∧
    (resize_to_fit ⟨800, 600, "RGB"⟩ 1080 1080 "crop" none).height = 1080 :=
  resize_to_fit_exact_dims ⟨800, 600, "RGB"⟩ 1080 1080 "crop" none
    (by decide) (by decide) (by decide) (by decide)

/-- C5: for 0 ≤ p ≤ 80 the encoder quality is
`max(25, min(95, 95 - int(p * 0.9)))` (with `int(p * 0.9) = ⌊9p/10⌋`, see
`derived_quality`), this value is monotonically non-increasing in p, and
absent or out-of-range percentages leave the web-optimized or default
preset quality. -/
theorem derived_quality_spec (web : Bool) (p : Int) :
    (0 ≤ p → p ≤ 80 →
      derived_quality web (some p) = max 25 (min 95 (95 - 9 * p.toNat / 10))) ∧
    (∀ q r : Int, 0 ≤ q → q ≤ r → r ≤ 80 →
      derived_quality web (some r) ≤ derived_quality web (some q)) ∧
    (derived_quality web none = if web then WEB_OPTIMIZED_QUALITY else DEFAULT_QUALITY) ∧
    ((p < 0 ∨ 80 < p) →
      derived_quality web (some p) = if web then WEB_OPTIMIZED_QUALITY else DEFAULT_QUALITY) := by
  refine ⟨fun h0 h80 => ?_, fun q r hq hqr hr => ?_, rfl, fun hout => ?_⟩
  · simp [derived_quality, h0, h80]
  · have hq' : 0 ≤ r := le_trans hq hqr
    have ht : q.toNat ≤ r.toNat := Int.toNat_le_toNat hqr
    have h1 : 9 * q.toNat / 10 ≤ 9 * r.toNat / 10 :=
      Nat.div_le_div_right (Nat.mul_le_mul_left 9 ht)
    have h2 : 95 - 9 * r.toNat / 10 ≤ 95 - 9 * q.toNat / 10 := Nat.sub_le_sub_left h1 95
    simp only [derived_quality, hq, hq', hqr.trans hr, hr, and_self, if_pos, le_refl]
    exact max_le_max le_rfl (min_le_min le_rfl h2)
  · have : ¬ (0 ≤ p ∧ p ≤ 80) := by omega
    simp [derived_quality, this]

/-- Witness for C5 at concrete percentages. -/
theorem derived_quality_spec_witness :
    derived_quality false (some 40) = max 25 (min 95 (95 - 9 * (40 : Int).toNat / 10)) ∧
    derived_quality false (some 50) ≤ derived_quality false (some 40) ∧
    derived_quality false none = DEFAULT_QUALITY ∧
    derived_quality false (some 81) = DEFAULT_QUALITY :=
  ⟨(derived_quality_spec false 40).1 (by decide) (by decide),
   (derived_quality_spec false 40).2.1 40 50 (by decide) (by decide) (by decide),
   by simpa using (derived_quality_spec false 40).2.2.1,
   by simpa using (derived_quality_spec false 81).2.2.2 (by decide)⟩

theorem pyStripList_pair {a b : Char} (ha : pyIsSpace a = false)
    (hb : pyIsSpace b = false) : pyStripList [a, b] = [a, b] := by
  simp [pyStripList, List.dropWhile_cons, ha, hb]

theorem hexDigitVal_ne {c lit : Char} {d : Nat} (h : hexDigitVal c = some d)
    (hlit : hexDigitVal lit = none) : c ≠ lit := by
  rintro rfl
  rw [hlit] at h
  exact Option.noConfusion h

/-- Parsing `int(s, 16)` on a two-hex-digit string returns the two-digit value. -/
theorem pyIntBase16_hexPair {a b : Char} {da db : Nat}
    (ha : hexDigitVal a = some da) (hb : hexDigitVal b = some db) :
    pyIntBase16 ⟨[a, b]⟩ = some ((16 * da + db : Nat) : Int) := by
  have hsa := hexDigitVal_not_space ha
  have hsb := hexDigitVal_not_space hb
  have hap : a ≠ '+' := hexDigitVal_ne ha (by decide)
  have ham : a ≠ '-' := hexDigitVal_ne ha (by decide)
  have hbx : b ≠ 'x' := hexDigitVal_ne hb (by decide)
  have hbX : b ≠ 'X' := hexDigitVal_ne hb (by decide)
  have hstrip : pyStripList (String.data ⟨[a, b]⟩) = [a, b] := pyStripList_pair hsa hsb
  unfold pyIntBase16
  rw [hstrip]
  simp only [hap, ham, if_false, if_neg]
  have hbody : parseHexBody [a, b] = some (16 * da + db) := by
    have h1 : parseHexBody [a, b] =
        if a = '0' ∧ (b = 'x' ∨ b = 'X') then parseHexDigits []
        else parseHexDigits [a, b] := rfl
    have h2 : parseHexDigits [a, b] = hexDigitsAux da [b] := by
      show (match hexDigitVal a with
            | some d => hexDigitsAux d [b]
            | none => none) = hexDigitsAux da [b]
      rw [ha]
    have hbu : b ≠ '_' := hexDigitVal_ne hb (by decide)
    have h3 : hexDigitsAux da [b] = some (16 * da + db) := by
      show (if b = '_' then none
            else match hexDigitVal b with
                 | some d => hexDigitsAux (16 * da + d) []
                 | none => none) = some (16 * da + db)
      rw [if_neg hbu, hb]
      rfl
    rw [h1, if_neg (by rintro ⟨rfl, hx | hx⟩ <;> simp_all), h2, h3]
  rw [hbody]
  rfl

theorem hexByte_nonneg (c : Char) : 0 ≤ hexByte c :=
  Int.natCast_nonneg _

theorem hexByte_le (c : Char) : hexByte c ≤ 15 := by
  simpa [hexByte] using Int.ofNat_le.mpr (hexDigitVal_getD_le c)

/-- C9 (amended): `hex_to_rgb` is total; an input whose trimmed,
`#`-stripped form is exactly six hexadecimal digits yields the three
parsed byte components (each in [0, 255]); an input whose trimmed form
does not have exactly six characters yields the default gray.  (Length-6
inputs that are not plain hex digits may still parse — with signs or inner
whitespace, as Python `int(·, 16)` tolerates — instead of falling back to
gray; see the counterexample.) -/
theorem hex_to_rgb_spec_amended (s : String) (t : List Char)
    (ht : (pyStripList s.data).dropWhile (fun c => c = '#') = t) :
    (t.length ≠ 6 → hex_to_rgb s = (128, 128, 128)) ∧
    (∀ c1 c2 c3 c4 c5 c6, t = [c1, c2, c3, c4, c5, c6] →
      (∀ c ∈ t, isHexDigit c = true) →
      hex_to_rgb s =
        (16 * hexByte c1 + hexByte c2, 16 * hexByte c3 + hexByte c4,
         16 * hexByte c5 + hexByte c6) ∧
      (0 ≤ 16 * hexByte c1 + hexByte c2 ∧ 16 * hexByte c1 + hexByte c2 ≤ 255) ∧
      (0 ≤ 16 * hexByte c3 + hexByte c4 ∧ 16 * hexByte c3 + hexByte c4 ≤ 255) ∧
      (0 ≤ 16 * hexByte c5 + hexByte c6 ∧ 16 * hexByte c5 + hexByte c6 ≤ 255)) := by
  constructor
  · intro hlen
    simp only [hex_to_rgb]
    rw [ht, if_neg hlen]
  · rintro c1 c2 c3 c4 c5 c6 rfl hhex
    obtain ⟨d1, hd1⟩ := Option.isSome_iff_exists.mp
      (by simpa [isHexDigit] using hhex c1 (by simp))
    obtain ⟨d2, hd2⟩ := Option.isSome_iff_exists.mp
      (by simpa [isHexDigit] using hhex c2 (by simp))
    obtain ⟨d3, hd3⟩ := Option.isSome_iff_exists.mp
      (by simpa [isHexDigit] using hhex c3 (by simp))
    obtain ⟨d4, hd4⟩ := Option.isSome_iff_exists.mp
      (by simpa [isHexDigit] using hhex c4 (by simp))
    obtain ⟨d5, hd5⟩ := Option.isSome_iff_exists.mp
      (by simpa [isHexDigit] using hhex c5 (by simp))
    obtain ⟨d6, hd6⟩ := Option.isSome_iff_exists.mp
      (by simpa [isHexDigit] using hhex c6 (by simp))
    have e1 : hexByte c1 = (d1 : Int) := by simp [hexByte, hd1]
    have e2 : hexByte c2 = (d2 : Int) := by simp [hexByte, hd2]
    have e3 : hexByte c3 = (d3 : Int) := by simp [hexByte, hd3]
    have e4 : hexByte c4 = (d4 : Int) := by simp [hexByte, hd4]
    have e5 : hexByte c5 = (d5 : Int) := by simp [hexByte, hd5]
    have e6 : hexByte c6 = (d6 : Int) := by simp [hexByte, hd6]
    refine ⟨?_, ?_, ?_, ?_⟩
    · simp only [hex_to_rgb]
      rw [ht]
      rw [if_pos (show ([c1, c2, c3, c4, c5, c6] : List Char).length = 6 from rfl)]
      simp only [List.take_succ_cons, List.take_zero, List.drop_succ_cons,
        List.drop_zero]
      rw [pyIntBase16_hexPair hd1 hd2, pyIntBase16_hexPair hd3 hd4,
        pyIntBase16_hexPair hd5 hd6]
      simp [e1, e2, e3, e4, e5, e6]
    · have := hexByte_le c1
      have := hexByte_le c2
      have := hexByte_nonneg c1
      have := hexByte_nonneg c2
      omega
    · have := hexByte_le c3
      have := hexByte_le c4
      have := hexByte_nonneg c3
      have := hexByte_nonneg c4
      omega
    · have := hexByte_le c5
      have := hexByte_le c6
      have := hexByte_nonneg c5
      have := hexByte_nonneg c6
      omega

/-- Witness for C9 (amended) at `"aabbcc"`. -/
theorem hex_to_rgb_spec_amended_witness :
    hex_to_rgb "aabbcc" =
      (16 * hexByte 'a' + hexByte 'a', 16 * hexByte 'b' + hexByte 'b',
       16 * hexByte 'c' + hexByte 'c') ∧
    (0 ≤ 16 * hexByte 'a' + hexByte 'a' ∧ 16 * hexByte 'a' + hexByte 'a' ≤ 255) ∧
    (0 ≤ 16 * hexByte 'b' + hexByte 'b' ∧ 16 * hexByte 'b' + hexByte 'b' ≤ 255) ∧
    (0 ≤ 16 * hexByte 'c' + hexByte 'c' ∧ 16 * hexByte 'c' + hexByte 'c' ≤ 255) :=
  (hex_to_rgb_spec_amended "aabbcc" ['a', 'a', 'b', 'b', 'c', 'c'] (by decide)).2
    'a' 'a' 'b' 'b' 'c' 'c' rfl (by decide)

/-- C9 as stated is false: `"+1+2+3"` is not six hexadecimal digits, yet
`hex_to_rgb` returns `(1, 2, 3)` (Python `int(·, 16)` accepts a sign in
each two-character group), not the default gray. -/
theorem hex_to_rgb_counterexample :
    hex_to_rgb "+1+2+3" = (1, 2, 3) ∧
    hex_to_rgb "+1+2+3" ≠ (128, 128, 128) ∧
    ¬ ((pyStripList ("+1+2+3" : String).data).dropWhile
        (fun c => c = '#')).all isHexDigit = true := by
  decide

/-- One loop iteration of `_parse_size_presets` agrees with the spec-side
single-label resolution plus the already-seen skip. -/
theorem parse_size_presets_step_spec (r : List SizeTriple) (s : List String) (n : String) :
    parse_size_presets_step (r, s) n =
      if pyLower (pyStrip n) ∈ s then (r, s)
      else
        match sizeLabelResolutionSpec n with
        | some t => (r ++ [t], s ++ [pyLower (pyStrip n)])
        | none => (r, s) := by
  unfold parse_size_presets_step sizeLabelResolutionSpec
  dsimp only
  by_cases hseen : pyLower (pyStrip n) ∈ s
  · simp [hseen]
  · simp only [hseen, if_false, if_neg, not_false_iff]
    split_ifs <;> try rfl
    rcases SIZE_PRESETS.lookup (pyLower (pyStrip n)) with _ | (_ | ⟨w, h⟩) <;> rfl

/-- The `_parse_size_presets` fold equals the spec-side list resolution. -/
theorem parse_size_presets_foldl_spec (ns : List String) (r : List SizeTriple)
    (s : List String) :
    (ns.foldl parse_size_presets_step (r, s)).1 = r ++ resolveSizeLabelsSpec ns s := by
  induction ns generalizing r s with
  | nil => simp [resolveSizeLabelsSpec]
  | cons n ns ih =>
    rw [List.foldl_cons, parse_size_presets_step_spec]
    unfold resolveSizeLabelsSpec
    by_cases hseen : pyLower (pyStrip n) ∈ s
    · simp [hseen, ih]
    · simp only [hseen, if_false, if_neg, not_false_iff]
      cases hres : sizeLabelResolutionSpec n with
      | some t => simp [ih, hres]
      | none => simp [ih, hres]

/-- C6 (amended): `_parse_size_presets` resolves each label by the spec's
per-label rules (`sizeLabelResolutionSpec`: the literal `original`,
`<int>x<int>` / `<int>x` / `x<int>` patterns with each dimension in
[1, 4096], named presets; labels are normalized by trimming and
lowercasing, whitespace around each dimension is tolerated), dropping
unrecognized or out-of-range labels and duplicate resolved labels, and an
absent, empty or fully-dropped input yields exactly the single `original`
entry. -/
theorem parse_size_presets_amended (names : List String) :
    (_parse_size_presets (some names) =
      if resolveSizeLabelsSpec names [] = [] then [(none, none, "original")]
      else resolveSizeLabelsSpec names []) ∧
    _parse_size_presets none = [(none, none, "original")] := by
  refine ⟨?_, rfl⟩
  cases names with
  | nil => simp [_parse_size_presets, resolveSizeLabelsSpec]
  | cons n ns =>
    show (if ((n :: ns).foldl parse_size_presets_step ([], [])).1 = [] then
        [((none : Option Int), (none : Option Int), "original")]
      else ((n :: ns).foldl parse_size_presets_step ([], [])).1) = _
    rw [parse_size_presets_foldl_spec]
    simp

/-- C6 as stated is false: `"100 x 200"` matches none of the literal
patterns (it has inner whitespace), so the claim says it is dropped and
the input defaults to `original`; the code strips each side of the `x`
and resolves it to 100×200. -/
theorem parse_size_presets_counterexample :
    _parse_size_presets (some ["100 x 200"]) = [(some 100, some 200, "100 x 200")] ∧
    _parse_size_presets (some ["100 x 200"]) ≠ [(none, none, "original")] := by
  decide

/-- C7 as stated is false: the mutators never clear the other terminal
field, so the call sequence create → failed → completed leaves a batch
with `status = "completed"` and `error` still set. -/
theorem batch_invariant_counterexample :
    (applyBatchCalls emptyBatches
        [.create "b" [], .failed "b" "boom", .completed "b" "b.zip" none]) "b" =
      some ⟨"b", "completed", [], some "boom", some "b.zip"⟩ ∧
    ¬ BatchFieldInvariant (applyBatchCalls emptyBatches
        [.create "b" [], .failed "b" "boom", .completed "b" "b.zip" none]) := by
  refine ⟨by decide, fun h => ?_⟩
  have h2 := (h "b" ⟨"b", "completed", [], some "boom", some "b.zip"⟩ (by decide)).2
  exact absurd (h2.mp rfl) (by decide)

theorem applyBatchCall_preserves (m : Batches) (c : BatchCall)
    (hm : BatchFieldInvariant m) (hg : terminalGuardOk m c) :
    BatchFieldInvariant (applyBatchCall m c) := by
  intro id j hj
  cases c with
  | create bid ts =>
    simp only [applyBatchCall, create_batch] at hj
    by_cases hid : id = bid
    · rw [if_pos hid] at hj
      injection hj with hj
      subst hj
      refine ⟨by simp, by simp⟩
    · rw [if_neg hid] at hj
      exact hm id j hj
  | completed bid z ts =>
    simp only [applyBatchCall, set_batch_completed] at hj
    by_cases hid : id = bid
    · rw [if_pos hid] at hj
      obtain ⟨j0, hj0, rfl⟩ := Option.map_eq_some'.mp hj
      have hproc := hg j0 hj0
      have herr : j0.error.isSome = false := by
        rcases h : j0.error.isSome with _ | _
        · rfl
        · exact absurd (((hm bid j0 hj0).2).mp h) (by rw [hproc]; decide)
      refine ⟨by simp, ?_⟩
      simpa using herr
    · rw [if_neg hid] at hj
      exact hm id j hj
  | failed bid e =>
    simp only [applyBatchCall, set_batch_failed] at hj
    by_cases hid : id = bid
    · rw [if_pos hid] at hj
      obtain ⟨j0, hj0, rfl⟩ := Option.map_eq_some'.mp hj
      have hproc := hg j0 hj0
      have hzip : j0.zip_filename.isSome = false := by
        rcases h : j0.zip_filename.isSome with _ | _
        · rfl
        · exact absurd (((hm bid j0 hj0).1).mp h) (by rw [hproc]; decide)
      refine ⟨?_, by simp⟩
      simpa using hzip
    · rw [if_neg hid] at hj
      exact hm id j hj

theorem guardedCalls_preserve (cs : List BatchCall) (m : Batches)
    (hm : BatchFieldInvariant m) (hg : GuardedCalls m cs) :
    BatchFieldInvariant (applyBatchCalls m cs) := by
  induction cs generalizing m with
  | nil => exact hm
  | cons c cs ih => exact ih (applyBatchCall m c) (applyBatchCall_preserves m c hm hg.1) hg.2

/-- C7 (amended): for every BatchJob reachable from the empty store by a
sequence of `create_batch` / `set_batch_completed` / `set_batch_failed`
calls in which each terminal call targets a batch currently in
`"processing"` (the discipline the coordinator follows, each batch getting
exactly one terminal transition), `zip_filename` is set iff the status is
`"completed"` and `error` is set iff the status is `"failed"`. -/
theorem batch_invariant_amended (cs : List BatchCall)
    (hg : GuardedCalls emptyBatches cs) :
    BatchFieldInvariant (applyBatchCalls emptyBatches cs) :=
  guardedCalls_preserve cs emptyBatches
    (fun _ j h => absurd h (by simp [emptyBatches])) hg

/-- Witness for C7 (amended): create then complete one batch. -/
theorem batch_invariant_amended_witness :
    GuardedCalls emptyBatches
      [BatchCall.create "b" ["t1"], BatchCall.completed "b" "b.zip" none] ∧
    BatchFieldInvariant (applyBatchCalls emptyBatches
      [BatchCall.create "b" ["t1"], BatchCall.completed "b" "b.zip" none]) := by
  have hg : GuardedCalls emptyBatches
      [BatchCall.create "b" ["t1"], BatchCall.completed "b" "b.zip" none] := by
    refine ⟨trivial, ?_, trivial⟩
    intro j hj
    simp only [applyBatchCall, create_batch, emptyBatches, if_pos] at hj
    injection hj with hj
    rw [← hj]
  exact ⟨hg, batch_invariant_amended _ hg⟩

/-- C2: after all member conversions resolve, `_run_batch_and_zip` marks
the batch completed with the archive name `f"{batch_id}.zip"` and exactly
the ids of the tasks that produced outputs when at least one did, and
marks it failed with `"No outputs produced"` when none did. -/
theorem run_batch_and_zip_spec (m : Batches) (batchId : String)
    (tasks : List ConversionTask) (fs : String) (isFile : String → Bool)
    (j : BatchJob) (hm : m batchId = some j) :
    ((∃ t ∈ tasks, t.output_paths ≠ []) →
      run_batch_and_zip m batchId tasks fs isFile batchId =
        some { j with
               status := "completed",
               zip_filename := some (batchId ++ ".zip"),
               task_ids := (tasks.filter fun t => t.output_paths ≠ []).map
                 fun t => t.task_id }) ∧
    ((∀ t ∈ tasks, t.output_paths = []) →
      run_batch_and_zip m batchId tasks fs isFile batchId =
        some { j with status := "failed", error := some "No outputs produced" }) := by
  constructor
  · intro hex
    obtain ⟨t, ht, hne⟩ := hex
    have hmem : t ∈ tasks.filter fun t => t.output_paths ≠ [] :=
      List.mem_filter.mpr ⟨ht, by simpa using hne⟩
    have hkey : ((tasks.filter fun t => t.output_paths ≠ []).map
        fun t => (t.task_id, t.output_paths)) ≠ [] :=
      List.ne_nil_of_mem (List.mem_map_of_mem _ hmem)
    unfold run_batch_and_zip
    dsimp only
    rw [if_pos hkey]
    simp [set_batch_completed, hm, List.map_map, Function.comp]
    rfl
  · intro hall
    have hkey : ((tasks.filter fun t => t.output_paths ≠ []).map
        fun t => (t.task_id, t.output_paths)) = [] := by
      rw [List.map_eq_nil_iff]
      rw [List.filter_eq_nil_iff]
      intro t ht
      simpa using hall t ht
    unfold run_batch_and_zip
    dsimp only
    rw [if_neg (by simpa using hkey)]
    simp [set_batch_failed, hm]

/-- Witness for C2: one task with an output, one without. -/
theorem run_batch_and_zip_spec_witness :
    run_batch_and_zip (create_batch emptyBatches "b" ["t1", "t2"]) "b"
      [{ task_id := "t1", filename := "a.png", media_type := .image,
         status := .completed, progress := 100, error := none,
         output_paths := ["a_t1_original.webp"], output_formats := ["webp"],
         input_size := some 10, output_sizes := [5] },
       { task_id := "t2", filename := "b.png", media_type := .image,
         status := .failed, progress := 0, error := some "boom",
         output_paths := [], output_formats := [],
         input_size := some 10, output_sizes := [] }] "flat" (fun _ => true) "b" =
      some ⟨"b", "completed", ["t1"], none, some "b.zip"⟩ := by
  have h := (run_batch_and_zip_spec (create_batch emptyBatches "b" ["t1", "t2"]) "b"
    [{ task_id := "t1", filename := "a.png", media_type := .image,
       status := .completed, progress := 100, error := none,
       output_paths := ["a_t1_original.webp"], output_formats := ["webp"],
       input_size := some 10, output_sizes := [5] },
     { task_id := "t2", filename := "b.png", media_type := .image,
       status := .failed, progress := 0, error := some "boom",
       output_paths := [], output_formats := [],
       input_size := some 10, output_sizes := [] }] "flat" (fun _ => true)
    ⟨"b", "processing", ["t1", "t2"], none, none⟩ (by decide)).1
    (by decide)
  exact h

/-- The image save loop records paths, formats and sizes in lockstep: the
final lists extend the initial ones by the same number of planned steps,
and the loop either completes or fails with the message of some failing
save. -/
theorem runImageSteps_char (ors : ConvOracles) (steps : List (String × String)) :
    ∀ (total step : ℚ) (t : ConversionTask), ∃ k,
      (runImageSteps ors total step steps t).1.output_paths =
        t.output_paths ++ (steps.map Prod.fst).take k ∧
      (runImageSteps ors total step steps t).1.output_formats =
        t.output_formats ++ (steps.map Prod.snd).take k ∧
      (runImageSteps ors total step steps t).1.output_sizes =
        t.output_sizes ++ ((steps.map Prod.fst).take k).map ors.statSize ∧
      (((runImageSteps ors total step steps t).2 = none ∧
          (runImageSteps ors total step steps t).1.status = .completed) ∨
        (∃ m, (runImageSteps ors total step steps t).2 = some m ∧
          (runImageSteps ors total step steps t).1.status = .failed ∧
          ∃ q, ors.saveFail q = some m)) := by
  induction steps with
  | nil =>
    intro total step t
    exact ⟨0, by simp [runImageSteps], by simp [runImageSteps],
      by simp [runImageSteps], Or.inl ⟨rfl, rfl⟩⟩
  | cons s rest ih =>
    intro total step t
    obtain ⟨p, f⟩ := s
    cases hsf : ors.saveFail p with
    | some msg =>
      refine ⟨0, by simp [runImageSteps, hsf], by simp [runImageSteps, hsf],
        by simp [runImageSteps, hsf], Or.inr ⟨msg, ?_, ?_, p, hsf⟩⟩
      · simp [runImageSteps, hsf]
      · simp [runImageSteps, hsf]
    | none =>
      have hred : runImageSteps ors total step ((p, f) :: rest) t =
          runImageSteps ors total (step + 1) rest
            { t with
              progress := (step + 1) / total * 100,
              output_paths := t.output_paths ++ [p],
              output_formats := t.output_formats ++ [f],
              output_sizes := t.output_sizes ++ [ors.statSize p] } := by
        simp [runImageSteps, hsf]
      obtain ⟨k, h1, h2, h3, h4⟩ := ih total (step + 1)
        { t with
          progress := (step + 1) / total * 100,
          output_paths := t.output_paths ++ [p],
          output_formats := t.output_formats ++ [f],
          output_sizes := t.output_sizes ++ [ors.statSize p] }
      refine ⟨k + 1, ?_, ?_, ?_, ?_⟩
      · rw [hred, h1]; simp
      · rw [hred, h2]; simp
      · rw [hred, h3]; simp
      · rw [hred]; exact h4

/-- The video loop analogue: lists grow in lockstep and every propagated
failure message is either the `FileNotFoundError` text or nonempty
(`stderr or stdout or "ffmpeg failed"`). -/
theorem runVideoSteps_char (ors : ConvOracles) (steps : List (String × String)) :
    ∀ (total idx : ℚ) (t : ConversionTask), ∃ k,
      (runVideoSteps ors total idx steps t).1.output_paths =
        t.output_paths ++ (steps.map Prod.fst).take k ∧
      (runVideoSteps ors total idx steps t).1.output_formats =
        t.output_formats ++ (steps.map Prod.snd).take k ∧
      (runVideoSteps ors total idx steps t).1.output_sizes =
        t.output_sizes ++ ((steps.map Prod.fst).take k).map ors.statSize ∧
      (((runVideoSteps ors total idx steps t).2 = none ∧
          (runVideoSteps ors total idx steps t).1.status = .completed) ∨
        (∃ m, (runVideoSteps ors total idx steps t).2 = some m ∧
          (runVideoSteps ors total idx steps t).1.status = .failed ∧
          (m = ors.fnfMessage ∨ m ≠ ""))) := by
  induction steps with
  | nil =>
    intro total idx t
    exact ⟨0, by simp [runVideoSteps], by simp [runVideoSteps],
      by simp [runVideoSteps], Or.inl ⟨rfl, rfl⟩⟩
  | cons s rest ih =>
    intro total idx t
    obtain ⟨p, f⟩ := s
    by_cases hmiss : ors.ffmpegMissing
    · refine ⟨0, by simp [runVideoSteps, hmiss], by simp [runVideoSteps, hmiss],
        by simp [runVideoSteps, hmiss],
        Or.inr ⟨ors.fnfMessage, ?_, ?_, Or.inl rfl⟩⟩
      · simp [runVideoSteps, hmiss]
      · simp [runVideoSteps, hmiss]
    · by_cases hrc : (ors.ffmpegRun p).1 ≠ 0
      · refine ⟨0, by simp [runVideoSteps, hmiss, hrc], by simp [runVideoSteps, hmiss, hrc],
          by simp [runVideoSteps, hmiss, hrc],
          Or.inr ⟨(if (ors.ffmpegRun p).2.1 ≠ "" then (ors.ffmpegRun p).2.1
                   else if (ors.ffmpegRun p).2.2 ≠ "" then (ors.ffmpegRun p).2.2
                   else "ffmpeg failed"),
            by simp [runVideoSteps, hmiss, hrc], by simp [runVideoSteps, hmiss, hrc],
            Or.inr ?_⟩⟩
        by_cases h1 : (ors.ffmpegRun p).2.1 = ""
        · by_cases h2 : (ors.ffmpegRun p).2.2 = ""
          · simp only [h1, h2]
            decide
          · simp [h1, h2]
        · simp [h1]
      · have hred : runVideoSteps ors total idx ((p, f) :: rest) t =
            runVideoSteps ors total (idx + 1) rest
              { t with
                progress := (idx + 1) / total * 100,
                output_paths := t.output_paths ++ [p],
                output_formats := t.output_formats ++ [f],
                output_sizes := t.output_sizes ++ [ors.statSize p] } := by
          simp [runVideoSteps, hmiss, hrc]
        obtain ⟨k, h1, h2, h3, h4⟩ := ih total (idx + 1)
          { t with
            progress := (idx + 1) / total * 100,
            output_paths := t.output_paths ++ [p],
            output_formats := t.output_formats ++ [f],
            output_sizes := t.output_sizes ++ [ors.statSize p] }
        refine ⟨k + 1, ?_, ?_, ?_, ?_⟩
        · rw [hred, h1]; simp
        · rw [hred, h2]; simp
        · rw [hred, h3]; simp
        · rw [hred]; exact h4

theorem _convert_image_char (ors : ConvOracles) (t0 : ConversionTask)
    (stem tid8 : String) (sps : List SizeTriple) (fmts : List String)
    (hpaths : t0.output_paths = []) (hformats : t0.output_formats = [])
    (hsizes : t0.output_sizes = []) :
    ∃ k,
      (_convert_image ors t0 stem tid8 sps fmts).1.output_paths =
        ((imageSteps stem tid8 sps fmts).map Prod.fst).take k ∧
      (_convert_image ors t0 stem tid8 sps fmts).1.output_formats =
        ((imageSteps stem tid8 sps fmts).map Prod.snd).take k ∧
      (_convert_image ors t0 stem tid8 sps fmts).1.output_sizes =
        (((imageSteps stem tid8 sps fmts).map Prod.fst).take k).map ors.statSize ∧
      (((_convert_image ors t0 stem tid8 sps fmts).2 = none ∧
          (_convert_image ors t0 stem tid8 sps fmts).1.status = .completed) ∨
        (∃ m, (_convert_image ors t0 stem tid8 sps fmts).2 = some m ∧
          (_convert_image ors t0 stem tid8 sps fmts).1.status = .failed ∧
          (ors.openFail = some m ∨ ∃ q, ors.saveFail q = some m))) := by
  unfold _convert_image
  cases hof : ors.openFail with
  | some msg =>
    exact ⟨0, by simp [hpaths], by simp [hformats], by simp [hsizes],
      Or.inr ⟨msg, by simp, by simp, Or.inl rfl⟩⟩
  | none =>
    obtain ⟨k, h1, h2, h3, h4⟩ := runImageSteps_char ors
      (imageSteps stem tid8 sps fmts)
      (if (imageSteps stem tid8 sps fmts).length = 0 then 1
        else (imageSteps stem tid8 sps fmts).length) 0
      { t0 with status := .converting, progress := 0 }
    refine ⟨k, ?_, ?_, ?_, ?_⟩
    · simpa [hpaths] using h1
    · simpa [hformats] using h2
    · simpa [hsizes] using h3
    · rcases h4 with ⟨ha, hb⟩ | ⟨m, ha, hb, q, hq⟩
      · exact Or.inl ⟨ha, hb⟩
      · exact Or.inr ⟨m, ha, hb, Or.inr ⟨q, hq⟩⟩

theorem _convert_video_char (ors : ConvOracles) (t0 : ConversionTask)
    (stem tid8 : String) (fmts : List String)
    (hpaths : t0.output_paths = []) (hformats : t0.output_formats = [])
    (hsizes : t0.output_sizes = []) :
    ∃ k,
      (_convert_video ors t0 stem tid8 fmts).1.output_paths =
        ((videoSteps stem tid8 fmts).map Prod.fst).take k ∧
      (_convert_video ors t0 stem tid8 fmts).1.output_formats =
        ((videoSteps stem tid8 fmts).map Prod.snd).take k ∧
      (_convert_video ors t0 stem tid8 fmts).1.output_sizes =
        (((videoSteps stem tid8 fmts).map Prod.fst).take k).map ors.statSize ∧
      (((_convert_video ors t0 stem tid8 fmts).2 = none ∧
          (_convert_video ors t0 stem tid8 fmts).1.status = .completed) ∨
        (∃ m, (_convert_video ors t0 stem tid8 fmts).2 = some m ∧
          (_convert_video ors t0 stem tid8 fmts).1.status = .failed ∧
          (m = ors.fnfMessage ∨ m ≠ ""))) := by
  unfold _convert_video
  obtain ⟨k, h1, h2, h3, h4⟩ := runVideoSteps_char ors (videoSteps stem tid8 fmts)
    (max 1 (fmts.length : ℚ)) 0 { t0 with status := .converting, progress := 0 }
  refine ⟨k, ?_, ?_, ?_, h4⟩
  · simpa [hpaths] using h1
  · simpa [hformats] using h2
  · simpa [hsizes] using h3

/-- Characterization of `convert` on a supported file: it returns `.ok`
with a task whose three output lists are the same-length prefix of the
planned `(path, format)` steps (the prefix written before the first
failure, all of them on success), registered in the service state; the
task ends completed or failed, and a failed task carries the propagated
exception message. -/
theorem convert_char (ors : ConvOracles) (st : ServiceState) (tid : String)
    (p : PyPath) (fmts : List String) (sps : Option (List String)) (mt : MediaType)
    (hmt : get_media_type p = some mt) :
    ∃ t k,
      (convert ors st tid p fmts sps).1 = Except.ok t ∧
      (convert ors st tid p fmts sps).2.tasks = st.tasks ++ [(tid, t)] ∧
      t.output_paths = ((plannedPaths mt p.stem (strTake 8 tid)
          (_parse_size_presets sps) fmts).map Prod.fst).take k ∧
      t.output_formats = ((plannedPaths mt p.stem (strTake 8 tid)
          (_parse_size_presets sps) fmts).map Prod.snd).take k ∧
      t.output_sizes = (((plannedPaths mt p.stem (strTake 8 tid)
          (_parse_size_presets sps) fmts).map Prod.fst).take k).map ors.statSize ∧
      (t.status = .completed ∨ t.status = .failed) ∧
      (t.status = .failed → ∃ m, t.error = some m ∧
        (ors.openFail = some m ∨ (∃ q, ors.saveFail q = some m) ∨
         m = ors.fnfMessage ∨ m ≠ "")) := by
  unfold convert
  rw [hmt]
  cases mt with
  | image =>
    dsimp only [plannedPaths]
    obtain ⟨k, h1, h2, h3, h4⟩ := _convert_image_char ors
      { task_id := tid, filename := p.name, media_type := .image,
        status := .converting, progress := 0, error := none, output_paths := [],
        output_formats := [], input_size := ors.inputSize, output_sizes := [] }
      p.stem (strTake 8 tid) (_parse_size_presets sps) fmts rfl rfl rfl
    rcases h4 with ⟨ha, hb⟩ | ⟨m, ha, hb, hsrc⟩
    · rw [ha]
      exact ⟨_, k, rfl, rfl, h1, h2, h3, Or.inl hb, fun hf => absurd hf (by rw [hb]; decide)⟩
    · rw [ha]
      refine ⟨_, k, rfl, rfl, by simpa using h1, by simpa using h2, by simpa using h3,
        Or.inr rfl, fun _ => ⟨m, rfl, ?_⟩⟩
      rcases hsrc with h | h
      · exact Or.inl h
      · exact Or.inr (Or.inl h)
  | video =>
    dsimp only [plannedPaths]
    obtain ⟨k, h1, h2, h3, h4⟩ := _convert_video_char ors
      { task_id := tid, filename := p.name, media_type := .video,
        status := .converting, progress := 0, error := none, output_paths := [],
        output_formats := [], input_size := ors.inputSize, output_sizes := [] }
      p.stem (strTake 8 tid) fmts rfl rfl rfl
    rcases h4 with ⟨ha, hb⟩ | ⟨m, ha, hb, hsrc⟩
    · rw [ha]
      exact ⟨_, k, rfl, rfl, h1, h2, h3, Or.inl hb, fun hf => absurd hf (by rw [hb]; decide)⟩
    · rw [ha]
      refine ⟨_, k, rfl, rfl, by simpa using h1, by simpa using h2, by simpa using h3,
        Or.inr rfl, fun _ => ⟨m, rfl, ?_⟩⟩
      rcases hsrc with h | h
      · exact Or.inr (Or.inr (Or.inl h))
      · exact Or.inr (Or.inr (Or.inr h))

/-- C8: for a path whose extension is neither a supported image nor a
supported video extension, `convert` raises the classification
`ValueError` before any task is created, and the task registry is
unchanged — no task record ever exists for such an input. -/
theorem convert_unsupported_spec (ors : ConvOracles) (st : ServiceState)
    (tid : String) (p : PyPath) (fmts : List String) (sps : Option (List String))
    (himg : pyLower p.suffix ∉ IMAGE_EXTENSIONS)
    (hvid : pyLower p.suffix ∉ VIDEO_EXTENSIONS) :
    convert ors st tid p fmts sps =
      (Except.error ("Unsupported file type: " ++ p.suffix), st) := by
  have hmt : get_media_type p = none := by
    unfold get_media_type
    simp [himg, hvid]
  unfold convert
  rw [hmt]

/-- Witness for C8 at a `.txt` file. -/
theorem convert_unsupported_spec_witness :
    convert ⟨none, fun _ => none, fun _ => 0, none, false, "fnf", fun _ => (0, "", "")⟩
        ⟨[]⟩ "11111111-aaaa" ⟨"doc", ".txt"⟩ ["webp"] none =
      (Except.error ("Unsupported file type: " ++ ".txt"), ⟨[]⟩) :=
  convert_unsupported_spec
    ⟨none, fun _ => none, fun _ => 0, none, false, "fnf", fun _ => (0, "", "")⟩
    ⟨[]⟩ "11111111-aaaa" ⟨"doc", ".txt"⟩ ["webp"] none (by decide) (by decide)

/-- C10: for a supported file, `convert` always returns a task and never
propagates an exception; on any conversion failure the returned (and
registered) task is `failed` with a non-empty error string — provided the
external codec/transcoder failure messages are non-empty, which is the
only part not determined by this repository — and its already-recorded
outputs (the planned prefix written before the failure) are retained. -/
theorem convert_supported_spec (ors : ConvOracles) (st : ServiceState)
    (tid : String) (p : PyPath) (fmts : List String) (sps : Option (List String))
    (mt : MediaType) (hmt : get_media_type p = some mt)
    (hopen : ∀ m, ors.openFail = some m → m ≠ "")
    (hsave : ∀ q m, ors.saveFail q = some m → m ≠ "")
    (hfnf : ors.fnfMessage ≠ "") :
    ∃ t k,
      (convert ors st tid p fmts sps).1 = Except.ok t ∧
      (convert ors st tid p fmts sps).2.tasks = st.tasks ++ [(tid, t)] ∧
      t.output_paths = ((plannedPaths mt p.stem (strTake 8 tid)
          (_parse_size_presets sps) fmts).map Prod.fst).take k ∧
      (t.status = .completed ∨ t.status = .failed) ∧
      (t.status = .failed → ∃ m, t.error = some m ∧ m ≠ "") := by
  obtain ⟨t, k, hok, hreg, hp, _, _, hst, herr⟩ :=
    convert_char ors st tid p fmts sps mt hmt
  refine ⟨t, k, hok, hreg, hp, hst, fun hfail => ?_⟩
  obtain ⟨m, hm, hsrc⟩ := herr hfail
  refine ⟨m, hm, ?_⟩
  rcases hsrc with h | ⟨q, h⟩ | h | h
  · exact hopen m h
  · exact hsave q m h
  · rw [h]; exact hfnf
  · exact h

/-- Witness for C10: an image conversion whose every save fails. -/
theorem convert_supported_spec_witness :
    ∃ t k,
      (convert ⟨none, fun _ => some "boom", fun _ => 0, some 4, false, "fnf",
          fun _ => (0, "", "")⟩
        ⟨[]⟩ "11111111-aaaa" ⟨"pic", ".png"⟩ ["webp"] none).1 = Except.ok t ∧
      (convert ⟨none, fun _ => some "boom", fun _ => 0, some 4, false, "fnf",
          fun _ => (0, "", "")⟩
        ⟨[]⟩ "11111111-aaaa" ⟨"pic", ".png"⟩ ["webp"] none).2.tasks =
        ([] : List (String × ConversionTask)) ++ [("11111111-aaaa", t)] ∧
      t.output_paths = ((plannedPaths .image "pic" (strTake 8 "11111111-aaaa")
          (_parse_size_presets none) ["webp"]).map Prod.fst).take k ∧
      (t.status = .completed ∨ t.status = .failed) ∧
      (t.status = .failed → ∃ m, t.error = some m ∧ m ≠ "") :=
  convert_supported_spec
    ⟨none, fun _ => some "boom", fun _ => 0, some 4, false, "fnf", fun _ => (0, "", "")⟩
    ⟨[]⟩ "11111111-aaaa" ⟨"pic", ".png"⟩ ["webp"] none .image (by decide)
    (fun _ h => Option.noConfusion h)
    (by intro q m h; injection h with h; subst h; decide)
    (by decide)

/-- C4 as stated is false: requesting the same output format twice (the
route layer passes `formats="webp,webp"` through without deduplication)
makes `_convert_image` write and record the same output path twice, so
`output_paths` is not duplicate-free. -/
theorem convert_output_lists_counterexample :
    (convert ⟨none, fun _ => none, fun _ => 7, some 4, false, "fnf",
        fun _ => (0, "", "")⟩
      ⟨[]⟩ "11111111-aaaa" ⟨"pic", ".png"⟩ ["webp", "webp"] (some ["original"])).1 =
      Except.ok
        { task_id := "11111111-aaaa", filename := "pic.png", media_type := .image,
          status := .completed, progress := 100, error := none,
          output_paths := ["pic_11111111_original.webp", "pic_11111111_original.webp"],
          output_formats := ["webp", "webp"], input_size := some 4,
          output_sizes := [7, 7] } ∧
    ¬ (["pic_11111111_original.webp", "pic_11111111_original.webp"] : List String).Nodup := by
  constructor
  · rfl
  · decide

/-- C4 (amended): after any `convert` call on a supported file (image or
video, completed or failed), the three output lists have equal lengths,
and `output_paths` is duplicate-free provided the planned output paths of
the requested (format × size-preset) combinations are pairwise distinct —
duplicate requested formats, or two size labels resolving to the same
dimensions, produce duplicate path entries. -/
theorem convert_output_lists_amended (ors : ConvOracles) (st : ServiceState)
    (tid : String) (p : PyPath) (fmts : List String) (sps : Option (List String))
    (mt : MediaType) (hmt : get_media_type p = some mt) :
    ∃ t,
      (convert ors st tid p fmts sps).1 = Except.ok t ∧
      t.output_paths.length = t.output_formats.length ∧
      t.output_formats.length = t.output_sizes.length ∧
      (((plannedPaths mt p.stem (strTake 8 tid) (_parse_size_presets sps)
          fmts).map Prod.fst).Nodup → t.output_paths.Nodup) := by
  obtain ⟨t, k, hok, _, hp, hf, hs, _, _⟩ := convert_char ors st tid p fmts sps mt hmt
  refine ⟨t, hok, ?_, ?_, fun hnd => ?_⟩
  · rw [hp, hf]
    simp [List.length_take]
  · rw [hf, hs]
    simp [List.length_take]
  · rw [hp]
    exact hnd.sublist (List.take_sublist _ _)

/-- Witness for C4 (amended): two distinct formats, no failure. -/
theorem convert_output_lists_amended_witness :
    ∃ t,
      (convert ⟨none, fun _ => none, fun _ => 7, some 4, false, "fnf",
          fun _ => (0, "", "")⟩
        ⟨[]⟩ "11111111-aaaa" ⟨"pic", ".png"⟩ ["webp", "jpeg"] (some ["original"])).1 =
        Except.ok t ∧
      t.output_paths.length = t.output_formats.length ∧
      t.output_formats.length = t.output_sizes.length ∧
      (((plannedPaths .image "pic" (strTake 8 "11111111-aaaa")
          (_parse_size_presets (some ["original"])) ["webp", "jpeg"]).map
          Prod.fst).Nodup → t.output_paths.Nodup) :=
  convert_output_lists_amended
    ⟨none, fun _ => none, fun _ => 7, some 4, false, "fnf", fun _ => (0, "", "")⟩
    ⟨[]⟩ "11111111-aaaa" ⟨"pic", ".png"⟩ ["webp", "jpeg"] (some ["original"])
    .image (by decide)

theorem string_append_cancel_left {a b c : String} (h : a ++ b = a ++ c) : b = c := by
  apply String.ext
  have hd : a.data ++ b.data = a.data ++ c.data := by
    rw [← String.data_append, ← String.data_append, h]
  exact List.append_cancel_left hd

/-- The image output filename determines the short task id: two names
built from the same stem, size suffix and format but different
equal-length short ids differ. -/
theorem imageOutName_tid_inj {stem sfx fmt t1 t2 : String}
    (hlen : t1.length = t2.length)
    (h : imageOutName stem t1 sfx fmt = imageOutName stem t2 sfx fmt) :
    t1 = t2 := by
  have hu : ("_" : String).data = ['_'] := rfl
  have hd0 := congrArg String.data h
  simp only [imageOutName, String.data_append, List.append_assoc, hu,
    List.singleton_append] at hd0
  have h1 := List.append_cancel_left hd0
  injection h1 with _ h2
  exact String.ext (List.append_inj h2 hlen).1

theorem pyBasename_eq_self {p : String} (h : ∀ c ∈ p.data, c ≠ '/') :
    pyBasename p = p := by
  unfold pyBasename
  have ht : p.data.reverse.takeWhile (fun c => c ≠ '/') = p.data.reverse := by
    rw [List.takeWhile_eq_self_iff]
    intro c hc
    simpa using h c (List.mem_reverse.mp hc)
  rw [ht, List.reverse_reverse]

/-- C3 as stated is false: two tasks whose display names sanitize to the
same string (here both `"photo.jpg"`) are placed under ONE shared archive
folder in `by_file` mode, not two distinct folders. -/
theorem zip_folders_counterexample :
    archiveFolderName [("11111111-aaaa", "photo.jpg"), ("22222222-bbbb", "photo.jpg")]
        "11111111-aaaa" =
      archiveFolderName [("11111111-aaaa", "photo.jpg"), ("22222222-bbbb", "photo.jpg")]
        "22222222-bbbb" ∧
    archiveFolderName [("11111111-aaaa", "photo.jpg"), ("22222222-bbbb", "photo.jpg")]
        "11111111-aaaa" = "photo.jpg" ∧
    create_zip_from_task_outputs "batch1"
        [("11111111-aaaa", ["photo_11111111_original.webp"]),
         ("22222222-bbbb", ["photo_22222222_original.webp"])] "by_file"
        [("11111111-aaaa", "photo.jpg"), ("22222222-bbbb", "photo.jpg")]
        (fun _ => true) =
      ("batch1.zip",
       ["photo.jpg/photo_11111111_original.webp",
        "photo.jpg/photo_22222222_original.webp"]) :=
  ⟨by decide, by decide, rfl⟩

/-- C3 (amended): in `by_file` mode two tasks with the same sanitized
display name share one archive folder, but in every folder mode their
archive member paths still never collide, because the output basenames
embed the 8-character task-id prefix — provided those prefixes differ
(and, for `by_format`, the two outputs use the same extension folder,
as equal formats do). -/
theorem zip_arcnames_amended (fn stem sfx fmt tid1 tid2 : String)
    (hne : strTake 8 tid1 ≠ strTake 8 tid2)
    (hlen : (strTake 8 tid1).length = (strTake 8 tid2).length)
    (hns1 : ∀ c ∈ (imageOutName stem (strTake 8 tid1) sfx fmt).data, c ≠ '/')
    (hns2 : ∀ c ∈ (imageOutName stem (strTake 8 tid2) sfx fmt).data, c ≠ '/')
    (hext : zipEntryExt (imageOutName stem (strTake 8 tid1) sfx fmt) =
      zipEntryExt (imageOutName stem (strTake 8 tid2) sfx fmt)) :
    archiveFolderName [(tid1, fn), (tid2, fn)] tid1 =
      archiveFolderName [(tid1, fn), (tid2, fn)] tid2 ∧
    ∀ fs, fs = "by_file" ∨ fs = "by_format" ∨ fs = "flat" →
      zipArcname fs (archiveFolderName [(tid1, fn), (tid2, fn)] tid1) tid1
          (imageOutName stem (strTake 8 tid1) sfx fmt) ≠
        zipArcname fs (archiveFolderName [(tid1, fn), (tid2, fn)] tid2) tid2
          (imageOutName stem (strTake 8 tid2) sfx fmt) := by
  have hfold : archiveFolderName [(tid1, fn), (tid2, fn)] tid1 =
      archiveFolderName [(tid1, fn), (tid2, fn)] tid2 := by
    unfold archiveFolderName
    have l1 : ([(tid1, fn), (tid2, fn)] : List (String × String)).lookup tid1 = some fn := by
      simp [List.lookup]
    have l2 : ([(tid1, fn), (tid2, fn)] : List (String × String)).lookup tid2 = some fn := by
      simp only [List.lookup]
      cases tid2 == tid1 <;> simp
    rw [l1, l2]
    rfl
  have hnameNe : imageOutName stem (strTake 8 tid1) sfx fmt ≠
      imageOutName stem (strTake 8 tid2) sfx fmt :=
    fun he => hne (imageOutName_tid_inj hlen he)
  have hb1 : pyBasename (imageOutName stem (strTake 8 tid1) sfx fmt) =
      imageOutName stem (strTake 8 tid1) sfx fmt := pyBasename_eq_self hns1
  have hb2 : pyBasename (imageOutName stem (strTake 8 tid2) sfx fmt) =
      imageOutName stem (strTake 8 tid2) sfx fmt := pyBasename_eq_self hns2
  refine ⟨hfold, fun fs hfs => ?_⟩
  rcases hfs with rfl | rfl | rfl
  · intro he
    have he' : archiveFolderName [(tid1, fn), (tid2, fn)] tid1 ++ "/" ++
        pyBasename (imageOutName stem (strTake 8 tid1) sfx fmt) =
        archiveFolderName [(tid1, fn), (tid2, fn)] tid2 ++ "/" ++
        pyBasename (imageOutName stem (strTake 8 tid2) sfx fmt) := he
    rw [hb1, hb2, hfold, String.append_assoc, String.append_assoc] at he'
    exact hnameNe (string_append_cancel_left (string_append_cancel_left he'))
  · intro he
    have he' : zipEntryExt (pyBasename (imageOutName stem (strTake 8 tid1) sfx fmt)) ++
        "/" ++ pyBasename (imageOutName stem (strTake 8 tid1) sfx fmt) =
        zipEntryExt (pyBasename (imageOutName stem (strTake 8 tid2) sfx fmt)) ++
        "/" ++ pyBasename (imageOutName stem (strTake 8 tid2) sfx fmt) := he
    rw [hb1, hb2, hext, String.append_assoc, String.append_assoc] at he'
    exact hnameNe (string_append_cancel_left (string_append_cancel_left he'))
  · intro he
    have he' : strTake 8 tid1 ++ "_" ++
        pyBasename (imageOutName stem (strTake 8 tid1) sfx fmt) =
        strTake 8 tid2 ++ "_" ++
        pyBasename (imageOutName stem (strTake 8 tid2) sfx fmt) := he
    apply hne
    have hd0 := congrArg String.data he'
    have hu : ("_" : String).data = ['_'] := rfl
    simp only [String.data_append, List.append_assoc, hu,
      List.singleton_append] at hd0
    exact String.ext (List.append_inj hd0 hlen).1

/-- Witness for C3 (amended) at the spec's concrete two-`photo.jpg`
scenario. -/
theorem zip_arcnames_amended_witness :
    archiveFolderName [("11111111-aaaa", "photo.jpg"), ("22222222-bbbb", "photo.jpg")]
        "11111111-aaaa" =
      archiveFolderName [("11111111-aaaa", "photo.jpg"), ("22222222-bbbb", "photo.jpg")]
        "22222222-bbbb" ∧
    ∀ fs, fs = "by_file" ∨ fs = "by_format" ∨ fs = "flat" →
      zipArcname fs
          (archiveFolderName [("11111111-aaaa", "photo.jpg"),
            ("22222222-bbbb", "photo.jpg")] "11111111-aaaa") "11111111-aaaa"
          (imageOutName "photo" (strTake 8 "11111111-aaaa") "original" "webp") ≠
        zipArcname fs
          (archiveFolderName [("11111111-aaaa", "photo.jpg"),
            ("22222222-bbbb", "photo.jpg")] "22222222-bbbb") "22222222-bbbb"
          (imageOutName "photo" (strTake 8 "22222222-bbbb") "original" "webp") :=
  zip_arcnames_amended "photo.jpg" "photo" "original" "webp"
    "11111111-aaaa" "22222222-bbbb" (by decide) (by decide) (by decide) (by decide)
    (by decide)

end ImgConv
